import Mathlib

/-!
# Verification of the tor-bridges-harvester core (src/src/main_grok_hide_logs.go)

A shallow embedding of the Go program's pure core: address parsing,
country/port filtering and sorting (`filterAndSortRelays`), the batch
prober (`checkRelay` + the result-aggregation loop of `main`), the batch
scheduler (the `for i := 0; ...; i += *numRelays` loop of `main`), and the
output formatter (`generateOutput`).

Go strings are modelled as Lean `String`s; the Go code only ever splits and
slices at single-byte ASCII delimiters (`':'`, `','`, `'['`, `'!'`, `'-'`),
where byte indices and character indices of valid UTF-8 coincide, so the
`List Char` view used below computes the same host/port/token boundaries as
Go's byte-based slicing.  Network dialing (`net.DialTimeout`) is an external
effect and is modelled by an oracle `dial : String → Bool` saying which
addresses accept a TCP connection within the timeout.
-/

set_option maxRecDepth 100000

namespace TorHarvester

/-- A Tor relay record: embedding of the Go struct `Relay`
(`Fingerprint`, `OrAddresses`, `Country`, and `Reachable`, the latter
populated only after checking; JSON decoding of onionoo data leaves
`Reachable` empty). -/
structure Relay where
  fingerprint : String
  orAddresses : List String
  country : String
  reachable : List String
  deriving DecidableEq, Repr

/-- `listStarts l p` is true when `p` is a prefix of `l`; embedding of Go
`strings.HasPrefix` on the character view. -/
def listStarts : List Char → List Char → Bool
  | _, [] => true
  | [], _ :: _ => false
  | c :: cs, d :: ds => c = d && listStarts cs ds

/-- `listHasSub l sub` is true when `sub` occurs contiguously inside `l`;
embedding of Go `strings.Contains` on the character view. -/
def listHasSub (l sub : List Char) : Bool :=
  match l with
  | [] => sub.isEmpty
  | _ :: cs => listStarts l sub || listHasSub cs sub

/-- Accumulator loop for `goSplit`: cut `l` at every occurrence of `sep`. -/
def splitCharAux (sep : Char) : List Char → List Char → List (List Char)
  | [], acc => [acc.reverse]
  | c :: cs, acc =>
    if c = sep then acc.reverse :: splitCharAux sep cs []
    else splitCharAux sep cs (c :: acc)

/-- Embedding of Go `strings.Split(s, sep)` for the single-character
separators the program uses (`":"` and `","`).  Like Go's, it returns at
least one piece, and `goSplit "" sep = [""]`. -/
def goSplit (s : String) (sep : Char) : List String :=
  (splitCharAux sep s.data []).map fun l => ⟨l⟩

/-- Go `unicode.IsSpace` restricted to the Latin-1 range; the characters the
relay-country tokens could realistically carry.  (The remaining Unicode
space code points never occur in two-letter country codes and no claim
depends on them.) -/
def isGoSpace (c : Char) : Bool :=
  c = ' ' || c = '\t' || c = '\n' || c = '\x0b' || c = '\x0c' || c = '\r' ||
  c = '\x85' || c = '\xa0'

/-- Embedding of Go `strings.TrimSpace`. -/
def goTrim (s : String) : String :=
  ⟨((s.data.dropWhile isGoSpace).reverse.dropWhile isGoSpace).reverse⟩

/-- Embedding of `parseAddress` (main_grok_hide_logs.go lines 116–130):
split on `":"`; fewer than two pieces gives `("", "")`; otherwise host is
the text before the first colon and port the text after the last colon;
when the host starts with `"["` and the address contains `"]:"`, the host
is re-sliced as `addr[1:portIdx]` with `portIdx` the index of the last
colon (note: the source slices up to `portIdx`, not `portIdx-1`, so the
closing bracket is kept in the host). -/
def parseAddress (addr : String) : String × String :=
  let parts := goSplit addr ':'
  if parts.length < 2 then ("", "")
  else
    let host := parts.headD ""
    let port := parts.getLastD ""
    if listStarts host.data ['['] && listHasSub addr.data [']', ':'] then
      let beforeLastColon := String.intercalate ":" parts.dropLast
      (⟨beforeLastColon.data.drop 1⟩, port)
    else (host, port)

/-- The three country maps of `filterAndSortRelays` (lines 134–150):
`only` from `!`-tokens, `excl` from `-`-tokens, `sorted` from bare tokens,
each keyed by the (trimmed, de-prefixed) token and carrying the token's
index in the comma-separated rule string.  Go maps are modelled as
association lists in insertion order; a later binding of the same key
shadows an earlier one, mirroring Go's map-assignment overwrite. -/
structure CountryMaps where
  only : List (String × Nat)
  excl : List (String × Nat)
  sorted : List (String × Nat)
  deriving DecidableEq, Repr

/-- Go map read `v, ok := m[k]`: the last binding of `k` wins. -/
def mapLookup (m : List (String × Nat)) (k : String) : Option Nat :=
  m.foldl (fun acc p => if p.1 = k then some p.2 else acc) none

/-- Go map membership `_, ok := m[k]`. -/
def mapHas (m : List (String × Nat)) (k : String) : Bool :=
  (mapLookup m k).isSome

/-- Embedding of the map-building loop of `filterAndSortRelays`
(lines 135–150): split the rule on `","`, trim each token, and route it by
its first character (`!` → `only`, `-` → `excl`, otherwise `sorted`),
recording the token index.  When the rule string is empty the three maps
stay nil, exactly as in the source.  Bindings are accumulated in reverse
and flipped at the end, preserving Go's insertion order. -/
def buildCountryMaps (preferredCountry : String) : CountryMaps :=
  if preferredCountry = "" then ⟨[], [], []⟩
  else
    let step := fun (m : CountryMaps) (ic : Nat × String) =>
      let i := ic.1
      let c := goTrim ic.2
      if listStarts c.data ['!'] then
        { m with only := (String.mk (c.data.drop 1), i) :: m.only }
      else if listStarts c.data ['-'] then
        { m with excl := (String.mk (c.data.drop 1), i) :: m.excl }
      else
        { m with sorted := (c, i) :: m.sorted }
    let m := ((goSplit preferredCountry ',').enum).foldl step ⟨[], [], []⟩
    ⟨m.only.reverse, m.excl.reverse, m.sorted.reverse⟩

/-- Port narrowing (lines 163–178, inner loops): keep exactly the addresses
whose parsed port equals one of the filter ports (the Go `break` after the
first match makes the inner loop a membership test). -/
def portNarrow (ports : List String) (addrs : List String) : List String :=
  addrs.filter fun addr => ports.contains (parseAddress addr).2

/-- The per-relay filter pass of `filterAndSortRelays` (lines 152–180):
drop a relay when the `only` map is non-empty and misses its country, or
when the `excl` map has its country; with a non-empty port filter, narrow
its addresses and drop it when none survive. -/
def filterRelays (m : CountryMaps) (ports : List String) : List Relay → List Relay
  | [] => []
  | r :: rs =>
    let rest := filterRelays m ports rs
    if !m.only.isEmpty && !mapHas m.only r.country then rest
    else if mapHas m.excl r.country then rest
    else if !ports.isEmpty then
      let newAddrs := portNarrow ports r.orAddresses
      if newAddrs.isEmpty then rest
      else { r with orAddresses := newAddrs } :: rest
    else r :: rest

/-- The sort key of the `sort.Slice` comparator (lines 183–192): the
country's index in the `sorted` map, with the fixed sentinel `1000` when
the country is absent. -/
def rankOf (sorted : List (String × Nat)) (r : Relay) : Nat :=
  (mapLookup sorted r.country).getD 1000

/-- The sorting step of `filterAndSortRelays` (lines 182–194): when the
`sorted` map is non-empty, sort by ascending `rankOf`.  The source calls
Go's `sort.Slice`, which guarantees the comparator-sorted order of a
permutation of the input but not stability; the embedding uses
`List.insertionSort`, which satisfies that contract. -/
def sortRelays (sorted : List (String × Nat)) (l : List Relay) : List Relay :=
  if sorted.isEmpty then l
  else l.insertionSort fun a b => rankOf sorted a ≤ rankOf sorted b

/-- Embedding of `filterAndSortRelays` (lines 133–197). -/
def filterAndSortRelays (relays : List Relay) (preferredCountry : String)
    (ports : List String) : List Relay :=
  let m := buildCountryMaps preferredCountry
  sortRelays m.sorted (filterRelays m ports relays)

/-- A message sent on the `results` channel by a successful `checkRelay`
goroutine (lines 89–113): the dialed address together with the identity of
the `Relay` value the goroutine's `relay *Relay` argument points to.  The
goroutines are launched from `for _, relay := range chunk` (line 356) with
`&relay`, the address of the loop's iteration variable — a copy of the
chunk element, never the chunk element itself — so the pointer is modelled
by the copy's position in the chunk. -/
structure ProbeMsg where
  address : String
  relayIdx : Nat
  deriving DecidableEq, Repr

/-- Phase 1 of a batch (lines 351–363): one `checkRelay` goroutine per
(relay, address) pair; a goroutine whose dial succeeds appends
`"<address> <fingerprint>\n"` to the `_bridges.txt` sink under the mutex
and sends an `⟨address, relay pointer⟩` message on the channel.  Messages
and sink lines are listed in goroutine launch order; the real channel and
sink order is a permutation of this (completion order), which only affects
the order inside the per-copy `reachable` lists built in phase 2 — lists
the rest of the program never reads (see `probeChunk`). -/
def dialResults (dial : String → Bool) (chunk : List Relay) :
    List ProbeMsg × List String :=
  (chunk.enum.flatMap fun jr =>
     (jr.2.orAddresses.filter dial).map fun addr => ProbeMsg.mk addr jr.1,
   chunk.flatMap fun r =>
     (r.orAddresses.filter dial).map fun addr =>
       addr ++ " " ++ r.fingerprint ++ "\n")

/-- Phase 2 of a batch (lines 365–367): drain the channel and execute
`res.Relay.Reachable = append(res.Relay.Reachable, res.Address)` for every
message.  The pointer written through is `&relay`, the iteration-variable
copy, so the appends land on copies of the chunk elements (modelled here as
a list of copies indexed in chunk order), not on the chunk itself. -/
def foldResults (copies : List Relay) (msgs : List ProbeMsg) : List Relay :=
  msgs.foldl
    (fun cs m =>
      match cs.get? m.relayIdx with
      | some c => cs.set m.relayIdx { c with reachable := c.reachable ++ [m.address] }
      | none => cs)
    copies

/-- One whole batch of the probe pipeline (lines 351–373): run the dials,
fold the results into the per-iteration copies, then compute the relays the
batch contributes to `workingRelays` — lines 369–373 re-range over `chunk`
itself and test `len(r.Reachable) > 0` on the original, never-mutated chunk
elements, so the folded copies are discarded and the contribution is just
the chunk elements whose `reachable` was already non-empty on entry.
Returns (folded copies, sink lines, contribution to `workingRelays`). -/
def probeChunk (dial : String → Bool) (chunk : List Relay) :
    List Relay × List String × List Relay :=
  let r := dialResults dial chunk
  let copies := foldResults chunk r.1
  let accepted := chunk.filter fun c => !c.reachable.isEmpty
  (copies, r.2, accepted)

/-- The scheduler loop of `main` (lines 339–383), in fuel-passing form:
each iteration takes the next `numRelays`-sized chunk of the remaining
relays, probes it, and appends its contribution to `workingRelays`; the
loop condition `i < len(relays) && len(workingRelays) < *goal` is checked
before every batch.  `attempts` counts loop iterations (the source's
"Attempt k/n" log lines).  The fuel only caps the iteration count:
`schedRun` supplies `relays.length + 1`, enough for every `numRelays ≥ 1`
(with `numRelays = 0` the Go loop never advances `i` and spins forever;
the fuel then truncates that divergence). -/
def schedLoop (dial : String → Bool) (numRelays goal : Nat) :
    Nat → List Relay → List Relay → List String → Nat →
    List Relay × List String × Nat
  | 0, _, working, sink, attempts => (working, sink, attempts)
  | fuel + 1, remaining, working, sink, attempts =>
    if remaining.isEmpty || goal ≤ working.length then (working, sink, attempts)
    else
      let chunk := remaining.take numRelays
      let res := probeChunk dial chunk
      schedLoop dial numRelays goal fuel (remaining.drop numRelays)
        (working ++ res.2.2) (sink ++ res.2.1) (attempts + 1)

/-- The whole scheduler run over a filtered relay list: returns the final
`workingRelays`, the accumulated `_bridges.txt` sink lines, and the number
of batches processed. -/
def schedRun (dial : String → Bool) (relays : List Relay)
    (numRelays goal : Nat) : List Relay × List String × Nat :=
  schedLoop dial numRelays goal (relays.length + 1) relays [] [] 0

/-- The text `generateOutput` (lines 200–218) writes to `outfile`: one
line `"<prefix><address> <fingerprint>\n"` per (relay, reachable address)
pair in input order, the prefix being `"Bridge "` in torrc mode, plus a
trailing `"UseBridges 1\n"` line in torrc mode. -/
def generateOutputText (workingRelays : List Relay) (torrcFmt : Bool) : String :=
  let pfx := if torrcFmt then "Bridge " else ""
  let body := workingRelays.foldl
    (fun acc r =>
      r.reachable.foldl
        (fun acc2 addr => acc2 ++ pfx ++ addr ++ " " ++ r.fingerprint ++ "\n")
        acc)
    ""
  if torrcFmt then body ++ "UseBridges 1\n" else body

/-- The substring whose presence removes an existing prefs.js line
(line 231 of the source). -/
def bridgeKeyMarker : String := "torbrowser.settings.bridges."

/-- The generated prefs.js bridge line for relay number `i` (the index of
the relay in `workingRelays`, NOT a running (relay, address) counter —
line 235 ranges `for i, r := range workingRelays` and reuses the same `i`
for every reachable address of relay `r`). -/
def prefsBridgeLine (i : Nat) (addr fp : String) : String :=
  "user_pref(\"torbrowser.settings.bridges.bridge_strings." ++ Nat.repr i ++
    "\", \"" ++ addr ++ " " ++ fp ++ "\");"

/-- The prefs.js rewrite of `generateOutput` (lines 220–243) as a pure
content transform: split the old content on newlines, keep the lines not
containing `bridgeKeyMarker`, append one `prefsBridgeLine` per
(relay, reachable address) pair, then the fixed enabled/source lines, and
join with newlines. -/
def prefsTransform (workingRelays : List Relay) (content : String) : String :=
  let kept := (goSplit content '\n').filter fun line =>
    !listHasSub line.data bridgeKeyMarker.data
  let gen := workingRelays.enum.flatMap fun ir =>
    ir.2.reachable.map fun addr => prefsBridgeLine ir.1 addr ir.2.fingerprint
  String.intercalate "\n"
    (kept ++ gen ++
      ["user_pref(\"torbrowser.settings.bridges.enabled\", true);",
       "user_pref(\"torbrowser.settings.bridges.source\", 2);"])

/-- The port list `main` builds from the `-p` flag (lines 296–299): nil
when the flag is empty, otherwise the flag split on `","`. -/
def portListOf (portsStr : String) : List String :=
  if portsStr = "" then [] else goSplit portsStr ','

/-- Terminal outcome of a run of `main` from the point the relay list is
in hand: `fatal` models `log.Fatal` (process abort), `ok` models a run
that reaches the end of `main`, carrying the final `workingRelays`, the
text written to `outfile`, and the closing log report. -/
inductive RunResult where
  | fatal (msg : String)
  | ok (working : List Relay) (outText : String) (report : String)
  deriving DecidableEq, Repr

/-- Embedding of `main` (lines 320–392) from the moment the relays are
downloaded: shuffle (modelled by taking the already-shuffled order as the
input list, the shuffle being seeded from the wall clock), filter, abort
with `log.Fatal "No relays match the specified criteria"` when nothing
survives (lines 323–326), otherwise run the batch scheduler and either
render the output (lines 385–389) or close with the
"No reachable relays found." report (line 391). -/
def runScanner (dial : String → Bool) (relays : List Relay)
    (preferredCountry portsStr : String) (numRelays goal : Nat)
    (torrcFmt : Bool) : RunResult :=
  let filtered := filterAndSortRelays relays preferredCountry (portListOf portsStr)
  if filtered.isEmpty then .fatal "No relays match the specified criteria"
  else
    let res := schedRun dial filtered numRelays goal
    if 0 < res.1.length then .ok res.1 (generateOutputText res.1 torrcFmt) ""
    else .ok res.1 "" "No reachable relays found."

/-- A candidate with one address, used to exercise a batch in which every
dial succeeds. -/
def relayA : Relay := ⟨"FP", ["1.2.3.4:443"], "us", []⟩

/-- Six single-address candidates for the 0,2,2 batch scenario of C2. -/
def c2Relays : List Relay :=
  [⟨"F1", ["h1:443"], "", []⟩, ⟨"F2", ["h2:443"], "", []⟩,
   ⟨"F3", ["h3:443"], "", []⟩, ⟨"F4", ["h4:443"], "", []⟩,
   ⟨"F5", ["h5:443"], "", []⟩, ⟨"F6", ["h6:443"], "", []⟩]

/-- Dial oracle for C2: the four addresses of the last two batches accept,
so per the spec the three batches of size 2 would yield 0, 2 and 2 accepted
candidates. -/
def c2Dial (a : String) : Bool :=
  a = "h3:443" || a = "h4:443" || a = "h5:443" || a = "h6:443"

/-- An accepted candidate with two reachable addresses, for C5. -/
def relayB : Relay :=
  ⟨"ABCD", ["1.2.3.4:443", "5.6.7.8:80"], "us", ["1.2.3.4:443", "5.6.7.8:80"]⟩

/-- A candidate whose only address contains no colon, for C10. -/
def relayL : Relay := ⟨"FL", ["localhost"], "us", []⟩

/-- A country rule with 1002 tokens for C4: the bare token `AA` at index 0,
a thousand excluded `-XX` fillers, and the bare token `BB` at index 1001 —
one past the fixed sort sentinel 1000 used for countries absent from the
`sorted` map. -/
def c4Rule : String :=
  "AA,-XX,-XX,-XX,-XX,-XX,-XX,-XX,-XX,-XX,-XX,-XX,-XX,-XX,-XX,-XX,-XX,-XX,-XX,-XX,-XX,-XX,-XX,-XX,-XX,-XX,-XX,-XX,-XX,-XX,-XX,-XX,-XX,-XX,-XX,-XX,-XX,-XX,-XX,-XX,-XX,-XX,-XX,-XX,-XX,-XX,-XX,-XX,-XX,-XX,-XX,-XX,-XX,-XX,-XX,-XX,-XX,-XX,-XX,-XX,-XX,-XX,-XX,-XX,-XX,-XX,-XX,-XX,-XX,-XX,-XX,-XX,-XX,-XX,-XX,-XX,-XX,-XX,-XX,-XX,-XX,-XX,-XX,-XX,-XX,-XX,-XX,-XX,-XX,-XX,-XX,-XX,-XX,-XX,-XX,-XX,-XX,-XX,-XX,-XX,-XX,-XX,-XX,-XX,-XX,-XX,-XX,-XX,-XX,-XX,-XX,-XX,-XX,-XX,-XX,-XX,-XX,-XX,-XX,-XX,-XX,-XX,-XX,-XX,-XX,-XX,-XX,-XX,-XX,-XX,-XX,-XX,-XX,-XX,-XX,-XX,-XX,-XX,-XX,-XX,-XX,-XX,-XX,-XX,-XX,-XX,-XX,-XX,-XX,-XX,-XX,-XX,-XX,-XX,-XX,-XX,-XX,-XX,-XX,-XX,-XX,-XX,-XX,-XX,-XX,-XX,-XX,-XX,-XX,-XX,-XX,-XX,-XX,-XX,-XX,-XX,-XX,-XX,-XX,-XX,-XX,-XX,-XX,-XX,-XX,-XX,-XX,-XX,-XX,-XX,-XX,-XX,-XX,-XX,-XX,-XX,-XX,-XX,-XX,-XX,-XX,-XX,-XX,-XX,-XX,-XX,-XX,-XX,-XX,-XX,-XX,-XX,-XX,-XX,-XX,-XX,-XX,-XX,-XX,-XX,-XX,-XX,-XX,-XX,-XX,-XX,-XX,-XX,-XX,-XX,-XX,-XX,-XX,-XX,-XX,-XX,-XX,-XX,-XX,-XX,-XX,-XX,-XX,-XX,-XX,-XX,-XX,-XX,-XX,-XX,-XX,-XX,-XX,-XX,-XX,-XX,-XX,-XX,-XX,-XX,-XX,-XX,-XX,-XX,-XX,-XX,-XX,-XX,-XX,-XX,-XX,-XX,-XX,-XX,-XX,-XX,-XX,-XX,-XX,-XX,-XX,-XX,-XX,-XX,-XX,-XX,-XX,-XX,-XX,-XX,-XX,-XX,-XX,-XX,-XX,-XX,-XX,-XX,-XX,-XX,-XX,-XX,-XX,-XX,-XX,-XX,-XX,-XX,-XX,-XX,-XX,-XX,-XX,-XX,-XX,-XX,-XX,-XX,-XX,-XX,-XX,-XX,-XX,-XX,-XX,-XX,-XX,-XX,-XX,-XX,-XX,-XX,-XX,-XX,-XX,-XX,-XX,-XX,-XX,-XX,-XX,-XX,-XX,-XX,-XX,-XX,-XX,-XX,-XX,-XX,-XX,-XX,-XX,-XX,-XX,-XX,-XX,-XX,-XX,-XX,-XX,-XX,-XX,-XX,-XX,-XX,-XX,-XX,-XX,-XX,-XX,-XX,-XX,-XX,-XX,-XX,-XX,-XX,-XX,-XX,-XX,-XX,-XX,-XX,-XX,-XX,-XX,-XX,-XX,-XX,-XX,-XX,-XX,-XX,-XX,-XX,-XX,-XX,-XX,-XX,-XX,-XX,-XX,-XX,-XX,-XX,-XX,-XX,-XX,-XX,-XX,-XX,-XX,-XX,-XX,-XX,-XX,-XX,-XX,-XX,-XX,-XX,-XX,-XX,-XX,-XX,-XX,-XX,-XX,-XX,-XX,-XX,-XX,-XX,-XX,-XX,-XX,-XX,-XX,-XX,-XX,-XX,-XX,-XX,-XX,-XX,-XX,-XX,-XX,-XX,-XX,-XX,-XX,-XX,-XX,-XX,-XX,-XX,-XX,-XX,-XX,-XX,-XX,-XX,-XX,-XX,-XX,-XX,-XX,-XX,-XX,-XX,-XX,-XX,-XX,-XX,-XX,-XX,-XX,-XX,-XX,-XX,-XX,-XX,-XX,-XX,-XX,-XX,-XX,-XX,-XX,-XX,-XX,-XX,-XX,-XX,-XX,-XX,-XX,-XX,-XX,-XX,-XX,-XX,-XX,-XX,-XX,-XX,-XX,-XX,-XX,-XX,-XX,-XX,-XX,-XX,-XX,-XX,-XX,-XX,-XX,-XX,-XX,-XX,-XX,-XX,-XX,-XX,-XX,-XX,-XX,-XX,-XX,-XX,-XX,-XX,-XX,-XX,-XX,-XX,-XX,-XX,-XX,-XX,-XX,-XX,-XX,-XX,-XX,-XX,-XX,-XX,-XX,-XX,-XX,-XX,-XX,-XX,-XX,-XX,-XX,-XX,-XX,-XX,-XX,-XX,-XX,-XX,-XX,-XX,-XX,-XX,-XX,-XX,-XX,-XX,-XX,-XX,-XX,-XX,-XX,-XX,-XX,-XX,-XX,-XX,-XX,-XX,-XX,-XX,-XX,-XX,-XX,-XX,-XX,-XX,-XX,-XX,-XX,-XX,-XX,-XX,-XX,-XX,-XX,-XX,-XX,-XX,-XX,-XX,-XX,-XX,-XX,-XX,-XX,-XX,-XX,-XX,-XX,-XX,-XX,-XX,-XX,-XX,-XX,-XX,-XX,-XX,-XX,-XX,-XX,-XX,-XX,-XX,-XX,-XX,-XX,-XX,-XX,-XX,-XX,-XX,-XX,-XX,-XX,-XX,-XX,-XX,-XX,-XX,-XX,-XX,-XX,-XX,-XX,-XX,-XX,-XX,-XX,-XX,-XX,-XX,-XX,-XX,-XX,-XX,-XX,-XX,-XX,-XX,-XX,-XX,-XX,-XX,-XX,-XX,-XX,-XX,-XX,-XX,-XX,-XX,-XX,-XX,-XX,-XX,-XX,-XX,-XX,-XX,-XX,-XX,-XX,-XX,-XX,-XX,-XX,-XX,-XX,-XX,-XX,-XX,-XX,-XX,-XX,-XX,-XX,-XX,-XX,-XX,-XX,-XX,-XX,-XX,-XX,-XX,-XX,-XX,-XX,-XX,-XX,-XX,-XX,-XX,-XX,-XX,-XX,-XX,-XX,-XX,-XX,-XX,-XX,-XX,-XX,-XX,-XX,-XX,-XX,-XX,-XX,-XX,-XX,-XX,-XX,-XX,-XX,-XX,-XX,-XX,-XX,-XX,-XX,-XX,-XX,-XX,-XX,-XX,-XX,-XX,-XX,-XX,-XX,-XX,-XX,-XX,-XX,-XX,-XX,-XX,-XX,-XX,-XX,-XX,-XX,-XX,-XX,-XX,-XX,-XX,-XX,-XX,-XX,-XX,-XX,-XX,-XX,-XX,-XX,-XX,-XX,-XX,-XX,-XX,-XX,-XX,-XX,-XX,-XX,-XX,-XX,-XX,-XX,-XX,-XX,-XX,-XX,-XX,-XX,-XX,-XX,-XX,-XX,-XX,-XX,-XX,-XX,-XX,-XX,-XX,-XX,-XX,-XX,-XX,-XX,-XX,-XX,-XX,-XX,-XX,-XX,-XX,-XX,-XX,-XX,-XX,-XX,-XX,-XX,-XX,-XX,-XX,-XX,-XX,-XX,-XX,-XX,-XX,-XX,-XX,-XX,-XX,-XX,-XX,-XX,-XX,-XX,-XX,-XX,-XX,-XX,-XX,-XX,-XX,-XX,-XX,-XX,-XX,-XX,-XX,-XX,-XX,-XX,-XX,-XX,-XX,-XX,-XX,-XX,-XX,-XX,-XX,-XX,-XX,-XX,-XX,-XX,-XX,-XX,-XX,-XX,-XX,-XX,-XX,-XX,-XX,-XX,-XX,-XX,-XX,-XX,-XX,-XX,-XX,-XX,-XX,-XX,-XX,-XX,-XX,-XX,-XX,-XX,-XX,-XX,-XX,-XX,-XX,-XX,-XX,-XX,-XX,-XX,-XX,-XX,-XX,-XX,-XX,-XX,-XX,-XX,-XX,-XX,-XX,-XX,-XX,-XX,-XX,-XX,-XX,-XX,-XX,-XX,-XX,-XX,-XX,-XX,-XX,-XX,-XX,-XX,-XX,-XX,-XX,-XX,-XX,-XX,-XX,-XX,-XX,-XX,-XX,-XX,-XX,-XX,-XX,-XX,-XX,-XX,-XX,-XX,-XX,-XX,-XX,-XX,-XX,-XX,-XX,-XX,-XX,-XX,-XX,-XX,-XX,-XX,-XX,-XX,-XX,-XX,-XX,-XX,-XX,-XX,-XX,-XX,-XX,-XX,-XX,-XX,-XX,-XX,BB"

/-- A candidate whose country `BB` is ranked (at index 1001) by `c4Rule`. -/
def relayBB : Relay := ⟨"FB", ["b:1"], "BB", []⟩

/-- A candidate whose country `QQ` is absent from every map of `c4Rule`. -/
def relayQQ : Relay := ⟨"FQ", ["q:1"], "QQ", []⟩

/-- Every relay kept by the filter pass has a country the `excl` map does
not contain: the exclusion check (line 159) runs on every relay that
reaches it, including relays that already passed the exclusive-only
check. -/
theorem mem_filterRelays_not_excl (m : CountryMaps) (ports : List String)
    (l : List Relay) :
    ∀ s ∈ filterRelays m ports l, mapHas m.excl s.country = false := by
  induction l with
  | nil => intro s hs; simp [filterRelays] at hs
  | cons r rs ih =>
    intro s hs
    simp only [filterRelays] at hs
    split at hs
    · exact ih s hs
    · split at hs
      · exact ih s hs
      next h2 =>
        split at hs
        · split at hs
          · exact ih s hs
          · rcases List.mem_cons.mp hs with rfl | hmem
            · simpa using h2
            · exact ih s hmem
        · rcases List.mem_cons.mp hs with rfl | hmem
          · simpa using h2
          · exact ih s hmem

/-- Membership transfer through the sorting step: sorting only permutes. -/
theorem mem_of_mem_sortRelays {sorted : List (String × Nat)} {l : List Relay}
    {s : Relay} (hs : s ∈ sortRelays sorted l) : s ∈ l := by
  unfold sortRelays at hs
  split at hs
  · exact hs
  · exact (List.perm_insertionSort _ _).mem_iff.mp hs

/-- Splitting a list that does not contain the separator yields the single
piece `acc.reverse ++ l`. -/
theorem splitCharAux_no_sep (sep : Char) (l : List Char) :
    ∀ acc : List Char, sep ∉ l → splitCharAux sep l acc = [acc.reverse ++ l] := by
  induction l with
  | nil => intro acc _; simp [splitCharAux]
  | cons c cs ih =>
    intro acc h
    have hc : ¬ c = sep := by
      intro e
      exact h (by rw [e]; exact List.mem_cons_self _ _)
    rw [splitCharAux, if_neg hc, ih (c :: acc) (fun hm => h (List.mem_cons_of_mem _ hm))]
    simp

/-- An address without a colon splits into a single piece, so
`parseAddress` returns the pair of empty strings. -/
theorem parseAddress_no_colon (addr : String) (h : ':' ∉ addr.data) :
    parseAddress addr = ("", "") := by
  unfold parseAddress goSplit
  rw [splitCharAux_no_sep ':' addr.data [] h]
  simp

/-- With a non-empty port filter, every relay kept by the filter pass
retains at least one address whose parsed port is in the filter list. -/
theorem mem_filterRelays_port_matched (m : CountryMaps) (ports : List String)
    (hne : ports ≠ []) (l : List Relay) :
    ∀ s ∈ filterRelays m ports l,
      ∃ a ∈ s.orAddresses, ports.contains (parseAddress a).2 = true := by
  induction l with
  | nil => intro s hs; simp [filterRelays] at hs
  | cons r rs ih =>
    intro s hs
    simp only [filterRelays] at hs
    split at hs
    · exact ih s hs
    · split at hs
      · exact ih s hs
      · split at hs
        · split at hs
          · exact ih s hs
          next hna =>
            rcases List.mem_cons.mp hs with rfl | hmem
            · obtain ⟨a, ha⟩ :=
                List.exists_mem_of_ne_nil _ (by simpa using hna)
              exact ⟨a, ha, (List.mem_filter.mp ha).2⟩
            · exact ih s hmem
        next hp =>
          exact absurd (by simpa using hp) hne

/-- C1: the claim says that after a batch's barrier every candidate with a
successful dial has the address in its `reachableAddresses` and that a run
with a successful dial ends with a non-empty accepted set.  The code
violates this: with a dial oracle that always succeeds and the single
candidate `relayA`, the batch writes the sink line and appends the address
to the per-iteration loop copy (`&relay` of `for _, relay := range chunk`),
but the acceptance scan re-reads the untouched chunk, so the batch
contributes nothing and the whole run ends with an empty accepted set and
the "no reachable relays" report. -/
theorem c1_success_lost_from_accepted_set :
    probeChunk (fun _ => true) [relayA] =
      ([⟨"FP", ["1.2.3.4:443"], "us", ["1.2.3.4:443"]⟩],
       ["1.2.3.4:443 FP\n"], [])
    ∧ runScanner (fun _ => true) [relayA] "" "" 30 5 false =
      .ok [] "" "No reachable relays found." := by decide

/-- C2: the claim says that with targetCount 3 and batches yielding 0, 2
and 2 accepted candidates the run stops after the third batch with 4
accepted candidates.  In the code the successful dials of batches two and
three reach the sink (their four lines are all present, and all three
batches are processed, so the goal check never fired early), but the
accepted set stays empty — the appends landed on the discarded loop-copy
relays — so the run ends with 0 accepted candidates, not 4. -/
theorem c2_overshoot_scenario_yields_nothing :
    schedRun c2Dial c2Relays 2 3 =
      ([], ["h3:443 F3\n", "h4:443 F4\n", "h5:443 F5\n", "h6:443 F6\n"], 3) := by
  decide

/-- C3: the claim says `parseAddress "[2001:db8::1]:443"` returns host
`"2001:db8::1"` and port `"443"`.  The port is right and a plain
`host:port` pair splits at the colon, but the bracket branch slices
`addr[1:portIdx]` — up to the last colon instead of up to the closing
bracket — so the returned host keeps a trailing `]`. -/
theorem c3_ipv6_host_keeps_closing_bracket :
    parseAddress "[2001:db8::1]:443" = ("2001:db8::1]", "443")
    ∧ parseAddress "1.2.3.4:443" = ("1.2.3.4", "443") := by decide

/-- C4 counterexample: the claim places countries absent from the
preference map after ALL ranked ones.  The comparator substitutes the
fixed sentinel 1000 for an absent country, so with `c4Rule` — whose bare
token `BB` has index 1001 — the unranked country `QQ` (rank 1000) sorts
strictly BEFORE the ranked country `BB` (rank 1001): the filter output
`[relayBB, relayQQ]` comes back reordered as `[relayQQ, relayBB]`. -/
theorem c4_unranked_before_ranked_counterexample :
    mapLookup (buildCountryMaps c4Rule).sorted "BB" = some 1001
    ∧ mapLookup (buildCountryMaps c4Rule).sorted "QQ" = none
    ∧ filterAndSortRelays [relayBB, relayQQ] c4Rule [] = [relayQQ, relayBB] := by
  decide

/-- C4 (amended): when the `sorted` map is non-empty, the survivors are a
permutation of the filter-pass output, arranged in ascending order of
`rankOf` — the country's preference index, with the fixed sentinel 1000
substituted for countries absent from the map.  (Unranked survivors
therefore come after ranked ones only when every rank is below 1000, and
Go's `sort.Slice` leaves the order of equal ranks unspecified.) -/
theorem c4_survivors_sorted_by_sentinel_rank (relays : List Relay)
    (pref : String) (ports : List String)
    (hs : (buildCountryMaps pref).sorted ≠ []) :
    List.Perm (filterAndSortRelays relays pref ports)
      (filterRelays (buildCountryMaps pref) ports relays)
    ∧ List.Pairwise
        (fun a b => rankOf (buildCountryMaps pref).sorted a ≤
          rankOf (buildCountryMaps pref).sorted b)
        (filterAndSortRelays relays pref ports) := by
  have hie : (buildCountryMaps pref).sorted.isEmpty = false := by
    simpa [List.isEmpty_iff] using hs
  simp only [filterAndSortRelays, sortRelays, hie, Bool.false_eq_true, if_false]
  constructor
  · exact List.perm_insertionSort _ _
  · haveI : IsTotal Relay
        (fun a b => rankOf (buildCountryMaps pref).sorted a ≤
          rankOf (buildCountryMaps pref).sorted b) :=
      ⟨fun a b => Nat.le_total _ _⟩
    haveI : IsTrans Relay
        (fun a b => rankOf (buildCountryMaps pref).sorted a ≤
          rankOf (buildCountryMaps pref).sorted b) :=
      ⟨fun _ _ _ hab hbc => Nat.le_trans hab hbc⟩
    exact List.sorted_insertionSort _ _

/-- Witness for C4 (amended) at a concrete input. -/
theorem c4_survivors_sorted_witness :
    List.Perm (filterAndSortRelays [relayBB, relayQQ] "BB" [])
      (filterRelays (buildCountryMaps "BB") [] [relayBB, relayQQ])
    ∧ List.Pairwise
        (fun a b => rankOf (buildCountryMaps "BB").sorted a ≤
          rankOf (buildCountryMaps "BB").sorted b)
        (filterAndSortRelays [relayBB, relayQQ] "BB" []) :=
  c4_survivors_sorted_by_sentinel_rank [relayBB, relayQQ] "BB" [] (by decide)

/-- C5: the claim says the prefs.js bridge lines carry a zero-based running
index over (candidate, address) pairs, consecutive and distinct even when
one candidate has several reachable addresses.  The code indexes by the
candidate's position in `workingRelays` instead, so one accepted candidate
with two reachable addresses produces two lines that both carry index 0
(the same `bridge_strings.0` preference key), where the claim requires 0
and 1. -/
theorem c5_prefs_index_repeats_per_candidate :
    prefsTransform [relayB] "" =
      "\nuser_pref(\"torbrowser.settings.bridges.bridge_strings.0\", \"1.2.3.4:443 ABCD\");" ++
      "\nuser_pref(\"torbrowser.settings.bridges.bridge_strings.0\", \"5.6.7.8:80 ABCD\");" ++
      "\nuser_pref(\"torbrowser.settings.bridges.enabled\", true);" ++
      "\nuser_pref(\"torbrowser.settings.bridges.source\", 2);" := by decide

/-- C6: when the filtered candidate list is empty, the run aborts with the
distinct fatal error of lines 323–326 before any batch is probed; it never
returns an empty success. -/
theorem c6_empty_filter_fatal (dial : String → Bool) (relays : List Relay)
    (preferredCountry portsStr : String) (numRelays goal : Nat)
    (torrcFmt : Bool)
    (h : filterAndSortRelays relays preferredCountry (portListOf portsStr) = []) :
    runScanner dial relays preferredCountry portsStr numRelays goal torrcFmt =
      .fatal "No relays match the specified criteria" := by
  simp [runScanner, h]

/-- Witness for C6 at a concrete input. -/
theorem c6_empty_filter_fatal_witness :
    runScanner (fun _ => true) [] "" "" 30 5 false =
      .fatal "No relays match the specified criteria" :=
  c6_empty_filter_fatal (fun _ => true) [] "" "" 30 5 false (by decide)

/-- C7: when candidates survive the filter but the scheduler finishes with
zero accepted candidates, the run completes successfully with an empty
result and the closing "No reachable relays found." report (line 391) — it
raises no error. -/
theorem c7_zero_accepted_success (dial : String → Bool) (relays : List Relay)
    (preferredCountry portsStr : String) (numRelays goal : Nat)
    (torrcFmt : Bool)
    (hne : filterAndSortRelays relays preferredCountry (portListOf portsStr) ≠ [])
    (hzero : (schedRun dial
        (filterAndSortRelays relays preferredCountry (portListOf portsStr))
        numRelays goal).1 = []) :
    runScanner dial relays preferredCountry portsStr numRelays goal torrcFmt =
      .ok [] "" "No reachable relays found." := by
  have hie : (filterAndSortRelays relays preferredCountry
      (portListOf portsStr)).isEmpty = false := by
    simpa [List.isEmpty_iff] using hne
  simp [runScanner, hie, hzero]

/-- Witness for C7 at a concrete input: one candidate survives the filter,
no dial succeeds, the run ends `.ok` with the report. -/
theorem c7_zero_accepted_success_witness :
    runScanner (fun _ => false) [relayA] "" "" 30 5 false =
      .ok [] "" "No reachable relays found." :=
  c7_zero_accepted_success (fun _ => false) [relayA] "" "" 30 5 false
    (by decide) (by decide)

/-- C8: torrc-mode output for one accepted candidate with fingerprint
`"ABCD"` and single reachable address `"1.2.3.4:443"` is exactly
`"Bridge 1.2.3.4:443 ABCD\nUseBridges 1\n"`: one `Bridge`-prefixed line
per (candidate, address) pair, then the `UseBridges 1` line. -/
theorem c8_torrc_output_exact :
    generateOutputText [⟨"ABCD", ["1.2.3.4:443"], "", ["1.2.3.4:443"]⟩] true =
      "Bridge 1.2.3.4:443 ABCD\nUseBridges 1\n" := by decide

/-- C9: a country listed in the rule both with `!` (exclusive) and with `-`
(excluded) is dropped: the exclusion check is independent of the
exclusive-only check and takes precedence, so no survivor carries such a
country. -/
theorem c9_excluded_wins_over_exclusive (relays : List Relay) (pref : String)
    (ports : List String) (c : String)
    (honly : mapHas (buildCountryMaps pref).only c = true)
    (hexcl : mapHas (buildCountryMaps pref).excl c = true) :
    ∀ s ∈ filterAndSortRelays relays pref ports, s.country ≠ c := by
  intro s hs hc
  have hmem : s ∈ filterRelays (buildCountryMaps pref) ports relays :=
    mem_of_mem_sortRelays hs
  have hnot := mem_filterRelays_not_excl (buildCountryMaps pref) ports relays s hmem
  rw [hc, hexcl] at hnot
  exact Bool.noConfusion hnot

/-- Witness for C9 at a concrete input: the rule `!RU,-RU,!US` lists `RU`
both exclusively and excluded; the US candidate survives and its country
differs from `RU` (and the RU candidate is dropped, so the survivor list
is exactly the US one). -/
theorem c9_excluded_wins_over_exclusive_witness :
    mapHas (buildCountryMaps "!RU,-RU,!US").only "RU" = true
    ∧ mapHas (buildCountryMaps "!RU,-RU,!US").excl "RU" = true
    ∧ (⟨"F1", ["1.2.3.4:443"], "US", []⟩ : Relay).country ≠ "RU" :=
  ⟨by decide, by decide,
    c9_excluded_wins_over_exclusive
      [⟨"F1", ["1.2.3.4:443"], "US", []⟩, ⟨"F2", ["5.6.7.8:80"], "RU", []⟩]
      "!RU,-RU,!US" [] "RU" (by decide) (by decide)
      ⟨"F1", ["1.2.3.4:443"], "US", []⟩ (by decide)⟩

/-- C10 counterexample: the claim says that with ANY non-empty port filter
an address without a colon never matches and such candidates are dropped.
But `-p ","` yields the non-empty port list `["", ""]`, and a colon-free
address parses to port `""`, which matches the empty token, so the
candidate survives with the colon-free address intact. -/
theorem c10_empty_port_token_counterexample :
    portListOf "," = ["", ""]
    ∧ portListOf "," ≠ []
    ∧ filterAndSortRelays [relayL] "" (portListOf ",") = [relayL] := by decide

/-- C10 (amended): a colon-free address parses to `("", "")` rather than
failing, and when the port filter is non-empty and contains no empty
token, every surviving candidate retains an address with a colon — so a
candidate all of whose addresses lack a colon is dropped entirely. -/
theorem c10_no_colon_amended (ports : List String) (hne : ports ≠ [])
    (hno : ports.contains "" = false) (relays : List Relay) (pref : String) :
    (∀ addr : String, ':' ∉ addr.data → parseAddress addr = ("", ""))
    ∧ ∀ s ∈ filterAndSortRelays relays pref ports,
        ∃ a ∈ s.orAddresses, ':' ∈ a.data := by
  refine ⟨fun addr h => parseAddress_no_colon addr h, fun s hs => ?_⟩
  have hmem : s ∈ filterRelays (buildCountryMaps pref) ports relays :=
    mem_of_mem_sortRelays hs
  obtain ⟨a, ha, hmatch⟩ :=
    mem_filterRelays_port_matched (buildCountryMaps pref) ports hne relays s hmem
  refine ⟨a, ha, ?_⟩
  by_cases hcolon : ':' ∈ a.data
  · exact hcolon
  · rw [parseAddress_no_colon a hcolon] at hmatch
    rw [hmatch] at hno
    exact absurd hno (by simp)

/-- Witness for C10 (amended) at a concrete input. -/
theorem c10_no_colon_amended_witness :
    parseAddress "localhost" = ("", "") :=
  (c10_no_colon_amended ["443"] (by decide) (by decide) [relayL] "").1
    "localhost" (by decide)

end TorHarvester
